import Mathlib

set_option maxHeartbeats 1000000

/-!
# Verification of the WeChat file-classification engine

Shallow embedding of `src/Multithreading.py` (whose `move_file` and `main`
are shared, up to logging, with `FileProcessingThread.run` in `src/main.py`).

Filesystem paths are modelled as lists of name components.  The filesystem
is a finite record of existing directories, existing regular files, and a
modification-time table; I/O failures that the Python code can only observe
as exceptions (mkdir permission errors, copy/move errors) are injected
through an explicit environment.  The worker pool is modelled by a
linearisation of the submitted tasks: the per-task semantics (`move_file`)
and the scheduler bookkeeping are what the claims are about, not the
interleaving itself.
-/

/-- A filesystem path, as a list of name components. -/
abbrev FPath := List String

/-- Final path component (pathlib `FPath.name`); `""` for the empty path. -/
def lastName (p : FPath) : String := (p.getLast?).getD ""

/-- pathlib `FPath.with_name`: replace the final component. -/
def withName (p : FPath) (n : String) : FPath := p.dropLast ++ [n]

/-- Index of the last `'.'` in a character list (Python `str.rfind('.')`),
`none` when there is no dot. -/
def lastDotIdx : List Char → Option Nat
  | [] => none
  | c :: cs =>
    match lastDotIdx cs with
    | some i => some (i + 1)
    | none => if c = '.' then some 0 else none

/-- pathlib `PurePath.suffix` on a file name: `name[i:]` when the last dot
sits at position `i` with `0 < i < len(name) - 1`, else `""`. -/
def pySuffix (s : String) : String :=
  match lastDotIdx s.data with
  | some i => if 0 < i ∧ i + 1 < s.data.length then String.mk (s.data.drop i) else ""
  | none => ""

/-- pathlib `PurePath.stem` on a file name: the part before `pySuffix`. -/
def pyStem (s : String) : String :=
  match lastDotIdx s.data with
  | some i => if 0 < i ∧ i + 1 < s.data.length then String.mk (s.data.take i) else s
  | none => s

/-- Python `str.lower`, modelled character-wise. -/
def lowerStr (s : String) : String := String.mk (s.data.map Char.toLower)

/-- Python `s[1:]`. -/
def dropFirst (s : String) : String := String.mk (s.data.drop 1)

/-- The classification key of a file name, from the scan loop of `main`
(`Multithreading.py` lines 74-80 / `main.py` lines 82-88):
`suffix = path.suffix.lower()`, then strip the dot, else `'no_ext'`. -/
def classify (name : String) : String :=
  let s := lowerStr (pySuffix name)
  if s ≠ "" then dropFirst s else "no_ext"

/-- `re.match(r'\d{4}-\d{2}', name)`: four digits, a dash, two digits,
anchored at the start of the name. -/
def isMonthName (s : String) : Bool :=
  match s.data with
  | a :: b :: c :: d :: e :: f :: g :: _ =>
    a.isDigit && b.isDigit && c.isDigit && d.isDigit && e == '-' && f.isDigit && g.isDigit
  | _ => false

/-- Filesystem state: existing directories, existing regular files, and the
modification-time table consulted by `FPath.stat()`. -/
structure FS where
  dirs : List FPath
  files : List FPath
  mtimes : List (FPath × Nat)
deriving DecidableEq

/-- Failure injection for the operations that can raise in the source:
`mkdir` (for a not-yet-existing directory) and `shutil.copy2`/`shutil.move`. -/
structure Env where
  mkdirFail : List FPath
  moveFail : List FPath
deriving DecidableEq

/-- The run configuration collected by the front end: input root, output
root, date sub-classification switch, keep-original (copy) switch. -/
structure Config where
  root : FPath
  outRoot : FPath
  useDate : Bool
  keepOriginal : Bool
deriving DecidableEq

/-- `FPath.exists()`: the path names an existing file or directory. -/
def pathExists (fs : FS) (p : FPath) : Prop := p ∈ fs.files ∨ p ∈ fs.dirs

instance (fs : FS) (p : FPath) : Decidable (pathExists fs p) := by
  unfold pathExists; infer_instance

/-- Render a path for log messages. -/
def pathStr (p : FPath) : String := String.intercalate "/" p

/-- `FPath.mkdir(parents=True, exist_ok=True)`: a no-op returning success when
the directory exists; otherwise it either raises (injected through
`Env.mkdirFail`) or creates the directory together with all its parents. -/
def mkdirP (env : Env) (fs : FS) (p : FPath) : Except String FS :=
  if p ∈ fs.dirs then Except.ok fs
  else if p ∈ env.mkdirFail then Except.error ("mkdir failed: " ++ pathStr p)
  else Except.ok { fs with dirs := p.inits ++ fs.dirs }

/-- Zero-pad to two digits (`strftime` `%m`, `%d`). -/
def pad2 (n : Nat) : String := if n < 10 then "0" ++ toString n else toString n

/-- Zero-pad to four digits (`strftime` `%Y`). -/
def pad4 (n : Nat) : String :=
  if n < 10 then "000" ++ toString n
  else if n < 100 then "00" ++ toString n
  else if n < 1000 then "0" ++ toString n
  else toString n

/-- Civil date (year, month, day) of a day count since the Unix epoch. -/
def civilOfDays (z : Nat) : Nat × Nat × Nat :=
  let w := z + 719468
  let era := w / 146097
  let doe := w % 146097
  let yoe := (doe - doe / 1460 + doe / 36524 - doe / 146096) / 365
  let y := yoe + era * 400
  let doy := doe - (365 * yoe + yoe / 4 - yoe / 100)
  let mp := (5 * doy + 2) / 153
  let d := doy - (153 * mp + 2) / 5 + 1
  let m := if mp < 10 then mp + 3 else mp - 9
  (if m ≤ 2 then y + 1 else y, m, d)

/-- `datetime.datetime.fromtimestamp(mtime).strftime('%Y-%m-%d')`, with the
local timezone of the source abstracted to UTC. -/
def formatDate (t : Nat) : String :=
  let c := civilOfDays (t / 86400)
  pad4 c.1 ++ "-" ++ pad2 c.2.1 ++ "-" ++ pad2 c.2.2

/-- `FPath.stat().st_mtime`: look the source path up in the mtime table;
`none` models the raised `OSError`. -/
def lookupMtime : List (FPath × Nat) → FPath → Option Nat
  | [], _ => none
  | (p, t) :: rest, q => if p = q then some t else lookupMtime rest q

/-- The first-level target directory `out_root / 'Files' / suf`. -/
def typeDir (cfg : Config) (key : String) : FPath := cfg.outRoot ++ ["Files", key]

/-- The warning printed when the date sub-directory cannot be prepared
(`[警告] 无法获取文件 ... 的日期信息`), carrying the underlying cause. -/
def tsWarn (src : FPath) (e : String) : String :=
  "warning: cannot get date info for " ++ pathStr src ++ ", saving to type dir: " ++ e

/-- One RelocationTask as submitted to the pool: `(src, dst, keep_original)`. -/
structure RTask where
  src : FPath
  dst : FPath
  copyOnly : Bool
deriving DecidableEq

/-- Per-task result: the executed relocation (with the final target actually
written) or the caught failure with its log line. -/
inductive Outcome where
  | success (src target : FPath)
  | failed (src : FPath) (reason : String)
deriving DecidableEq

/-- Destination computation for one source file, from the task-building loop
(`Multithreading.py` lines 116-132): optionally stat the source, build and
create the `YYYY-MM-DD` sub-directory, and fall back to the type directory
with a warning when the `try` block raises. -/
def destFor (env : Env) (cfg : Config) (fs : FS) (tdir : FPath) (src : FPath) :
    FS × FPath × List String :=
  if cfg.useDate then
    match lookupMtime fs.mtimes src with
    | none => (fs, tdir ++ [lastName src], [tsWarn src "stat failed"])
    | some t =>
      match mkdirP env fs (tdir ++ [formatDate t]) with
      | Except.error e => (fs, tdir ++ [lastName src], [tsWarn src e])
      | Except.ok fs' => (fs', tdir ++ [formatDate t, lastName src], [])
  else (fs, tdir ++ [lastName src], [])

/-- One iteration step of the rename loop in `move_file`:
`target.with_name(f"{target.stem}({counter}){target.suffix}")`. -/
def nextTarget (p : FPath) (counter : Nat) : FPath :=
  withName p (pyStem (lastName p) ++ "(" ++ toString counter ++ ")" ++ pySuffix (lastName p))

/-- The `while target.exists()` loop of `move_file`, with explicit fuel
(the loop terminates on any finite filesystem; `moveFuel` below is always
enough, see `resolveTarget_total`). -/
def resolveTarget (fs : FS) : Nat → FPath → Nat → Option FPath
  | 0, _, _ => none
  | fuel + 1, target, counter =>
    if pathExists fs target then resolveTarget fs fuel (nextTarget target counter) (counter + 1)
    else some target

/-- The sequence of candidate paths the loop in `move_file` actually walks:
each probe re-splits the previous probe into stem and suffix. -/
def codeProbe (p : FPath) : Nat → FPath
  | 0 => p
  | k + 1 => nextTarget (codeProbe p k) (k + 1)

/-- The probe sequence the specification describes: counter `n` inserted
before the extension of the original candidate, `stem(n)ext`. -/
def specProbe (p : FPath) (n : Nat) : FPath := nextTarget p n

/-- Largest final-component length over everything that exists. -/
def maxNameLen (fs : FS) : Nat :=
  ((fs.files ++ fs.dirs).map (fun p => (lastName p).length)).foldr max 0

/-- Fuel that always suffices for `resolveTarget` (probe names strictly
grow, so a probe eventually exceeds every existing name). -/
def moveFuel (fs : FS) : Nat := maxNameLen fs + 2

/-- The error line of `move_file`: `f'{...}失败：{src_path} -> {target} {e}'`. -/
def moveFailMsg (t : RTask) (target : FPath) : String :=
  (if t.copyOnly then "copy failed: " else "move failed: ")
    ++ pathStr t.src ++ " -> " ++ pathStr target

/-- `move_file(src, dst, copy_only)`: disambiguate the destination, then
`shutil.copy2` or `shutil.move`; any exception is caught at the task
boundary and reported, never re-raised past the pool. -/
def moveFileExec (env : Env) (fs : FS) (t : RTask) : FS × Outcome :=
  match resolveTarget fs (moveFuel fs) t.dst 1 with
  | none => (fs, Outcome.failed t.src "disambiguation did not terminate")
  | some target =>
    if t.src ∈ fs.files ∧ t.src ∉ env.moveFail then
      if t.copyOnly then
        ({ fs with files := target :: fs.files }, Outcome.success t.src target)
      else
        ({ fs with files := target :: fs.files.erase t.src }, Outcome.success t.src target)
    else (fs, Outcome.failed t.src (moveFailMsg t target))

/-- Execution of the submitted task list (a linearisation of the worker
pool): every task runs, each yielding one outcome. -/
def runTasks (env : Env) : FS → List RTask → FS × List Outcome
  | fs, [] => (fs, [])
  | fs, t :: ts =>
    let r := moveFileExec env fs t
    let rest := runTasks env r.1 ts
    (rest.1, r.2 :: rest.2)

/-- `f` lies strictly below directory `d`. -/
def underDir (d f : FPath) : Prop := f.take d.length = d ∧ d.length < f.length

instance (d f : FPath) : Decidable (underDir d f) := by
  unfold underDir; infer_instance

/-- The month folders: immediate subdirectories of the root whose name
matches the year-month pattern. -/
def monthDirs (fs : FS) (root : FPath) : List FPath :=
  fs.dirs.filter (fun d => decide (d ≠ [] ∧ d.dropLast = root) && isMonthName (lastName d))

/-- `month_folder.rglob('*')` restricted to regular files. -/
def filesUnder (fs : FS) (d : FPath) : List FPath :=
  fs.files.filter (fun f => decide (underDir d f))

/-- Append one file to its bucket in the insertion-ordered grouping
(`defaultdict(list)`). -/
def addToGroups (gs : List (String × List FPath)) (k : String) (p : FPath) :
    List (String × List FPath) :=
  match gs with
  | [] => [(k, [p])]
  | (k', ps) :: rest =>
    if k' = k then (k', ps ++ [p]) :: rest else (k', ps) :: addToGroups rest k p

/-- Build `files_by_type` from the discovered files in traversal order. -/
def groupFiles (fps : List FPath) : List (String × List FPath) :=
  fps.foldl (fun gs p => addToGroups gs (classify (lastName p)) p) []

/-- The scan phase: classify every regular file below a month folder. -/
def scan (fs : FS) (root : FPath) : List (String × List FPath) :=
  groupFiles (((monthDirs fs root).map (filesUnder fs)).flatten)

/-- The type-directory creation loop (`Multithreading.py` lines 104-109):
an exception from `mkdir` propagates out of the loop. -/
def createTypeDirs (env : Env) (cfg : Config) :
    FS → List String → Except (FS × FPath × String) FS
  | fs, [] => Except.ok fs
  | fs, k :: ks =>
    match mkdirP env fs (typeDir cfg k) with
    | Except.error e => Except.error (fs, typeDir cfg k, e)
    | Except.ok fs' => createTypeDirs env cfg fs' ks

/-- RTask building for one bucket. -/
def buildGroup (env : Env) (cfg : Config) (tdir : FPath) :
    FS → List FPath → FS × List RTask × List String
  | fs, [] => (fs, [], [])
  | fs, src :: rest =>
    let r := destFor env cfg fs tdir src
    let b := buildGroup env cfg tdir r.1 rest
    (b.1, ⟨src, r.2.1, cfg.keepOriginal⟩ :: b.2.1, r.2.2 ++ b.2.2)

/-- RTask building over all buckets (`Multithreading.py` lines 111-132). -/
def buildTasks (env : Env) (cfg : Config) :
    FS → List (String × List FPath) → FS × List RTask × List String
  | fs, [] => (fs, [], [])
  | fs, (suf, fps) :: rest =>
    let g := buildGroup env cfg (typeDir cfg suf) fs fps
    let b := buildTasks env cfg g.1 rest
    (b.1, g.2.1 ++ b.2.1, g.2.2 ++ b.2.2)

/-- Scheduler summary of a completed run. -/
structure RunResult where
  tasks : List RTask
  outcomes : List Outcome
  warnings : List String
  workers : Nat
  poolCreated : Bool
deriving DecidableEq

/-- How a run ends: normally, rejected root, or a directory-creation
exception escaping the type-directory loop. -/
inductive RunExit where
  | ok (r : RunResult)
  | invalidRoot
  | dirCreateError (p : FPath) (msg : String)
deriving DecidableEq

/-- The pool phase (`Multithreading.py` lines 134-148): early return when
the task list is empty (`if not tasks: return` — no `ThreadPoolExecutor`
is created), otherwise drain a pool of `min(32, len(tasks))` workers. -/
def execPhase (env : Env) (fs : FS) (tasks : List RTask) (warns : List String) :
    FS × RunExit :=
  if tasks = [] then (fs, RunExit.ok ⟨tasks, [], warns, 0, false⟩)
  else
    ((runTasks env fs tasks).1,
      RunExit.ok ⟨tasks, (runTasks env fs tasks).2, warns, min 32 tasks.length, true⟩)

/-- The whole run (`main` of `Multithreading.py`; `FileProcessingThread.run`
of `main.py` is the same pipeline): validate the root, scan, create the
type directories, build the task list, and drain the pool. -/
def mainRun (env : Env) (cfg : Config) (fs : FS) : FS × RunExit :=
  if cfg.root ∈ fs.dirs then
    match createTypeDirs env cfg fs ((scan fs cfg.root).map Prod.fst) with
    | Except.error e => (e.1, RunExit.dirCreateError e.2.1 e.2.2)
    | Except.ok fs1 =>
      execPhase env (buildTasks env cfg fs1 (scan fs cfg.root)).1
        (buildTasks env cfg fs1 (scan fs cfg.root)).2.1
        (buildTasks env cfg fs1 (scan fs cfg.root)).2.2
  else (fs, RunExit.invalidRoot)

/-! ## Basic string and path lemmas -/

theorem string_mk_append (a b : List Char) :
    String.mk a ++ String.mk b = String.mk (a ++ b) := rfl

theorem string_mk_eq_empty_iff (l : List Char) : String.mk l = "" ↔ l = [] := by
  constructor
  · intro h
    have : (String.mk l).data = ("" : String).data := by rw [h]
    simpa using this
  · intro h
    rw [h]

theorem lowerStr_eq_empty_iff (s : String) : lowerStr s = "" ↔ s = "" := by
  cases s with
  | mk l =>
    unfold lowerStr
    simp only [string_mk_eq_empty_iff, List.map_eq_nil_iff]

theorem dropFirst_lowerStr (s : String) : dropFirst (lowerStr s) = lowerStr (dropFirst s) := by
  unfold dropFirst lowerStr
  simp [List.map_drop]

theorem pyStem_append_pySuffix (s : String) : pyStem s ++ pySuffix s = s := by
  unfold pyStem pySuffix
  cases h : lastDotIdx s.data with
  | none =>
    cases s with
    | mk l => exact congrArg String.mk (List.append_nil l)
  | some i =>
    by_cases hc : 0 < i ∧ i + 1 < s.data.length
    · simp only [hc, if_true]
      cases s with
      | mk l =>
        rw [string_mk_append]
        exact congrArg String.mk (List.take_append_drop i l)
    · simp only [hc, if_false]
      cases s with
      | mk l => exact congrArg String.mk (List.append_nil l)

theorem length_pyStem_add_pySuffix (s : String) :
    (pyStem s).length + (pySuffix s).length = s.length := by
  conv_rhs => rw [← pyStem_append_pySuffix s]
  exact (String.length_append _ _).symm

theorem lastName_withName (p : FPath) (n : String) : lastName (withName p n) = n := by
  unfold lastName withName
  rw [List.getLast?_concat]
  rfl

theorem lastDotIdx_eq_none (l : List Char) (h : '.' ∉ l) : lastDotIdx l = none := by
  induction l with
  | nil => rfl
  | cons c cs ih =>
    have hc : c ≠ '.' := fun e => h (e ▸ List.mem_cons_self c cs)
    have hcs : '.' ∉ cs := fun e => h (List.mem_cons_of_mem _ e)
    unfold lastDotIdx
    rw [ih hcs]
    simp [hc]

/-- C4: the classification key is the file's extension (pathlib suffix with
its leading dot stripped) lower-cased, and the sentinel `no_ext` exactly
when the path has no extension.  `classify` is a total Lean function, so
it is pure, has no side effects and never fails. -/
theorem claim_C4_classify (name : String) :
    classify name =
      if pySuffix name = "" then "no_ext" else lowerStr (dropFirst (pySuffix name)) := by
  by_cases h : pySuffix name = ""
  · have h0 : lowerStr "" = "" := rfl
    simp [classify, h, h0]
  · have h1 : lowerStr (pySuffix name) ≠ "" := fun hc => h ((lowerStr_eq_empty_iff _).mp hc)
    simp [classify, h, h1, dropFirst_lowerStr]

/-- C10: a file name whose only dot is its leading character has empty
pathlib suffix, so it is classified `no_ext` and its bucket's first-level
target directory is `Files/no_ext`. -/
theorem claim_C10_dotfile (cfg : Config) (rest : List Char) (h : '.' ∉ rest) :
    classify (String.mk ('.' :: rest)) = "no_ext" ∧
    typeDir cfg (classify (String.mk ('.' :: rest))) = cfg.outRoot ++ ["Files", "no_ext"] := by
  have hdot : lastDotIdx ('.' :: rest) = some 0 := by
    unfold lastDotIdx
    rw [lastDotIdx_eq_none rest h]
    simp
  have hsuf : pySuffix (String.mk ('.' :: rest)) = "" := by
    unfold pySuffix
    rw [show (String.mk ('.' :: rest)).data = '.' :: rest from rfl, hdot]
    simp
  have hcl : classify (String.mk ('.' :: rest)) = "no_ext" := by
    have h0 : lowerStr "" = "" := rfl
    simp [classify, hsuf, h0]
  exact ⟨hcl, by rw [hcl]; rfl⟩

theorem claim_C10_witness :
    ('.' ∉ "gitignore".data) ∧ classify ".gitignore" = "no_ext" :=
  ⟨by decide, by
    have h := (claim_C10_dotfile ⟨[], [], false, false⟩ "gitignore".data (by decide)).1
    exact h⟩

/-! ## The rename loop of `move_file` -/

theorem resolveTarget_zero (fs : FS) (target : FPath) (counter : Nat) :
    resolveTarget fs 0 target counter = none := rfl

theorem resolveTarget_succ (fs : FS) (fuel : Nat) (target : FPath) (counter : Nat) :
    resolveTarget fs (fuel + 1) target counter =
      if pathExists fs target then
        resolveTarget fs fuel (nextTarget target counter) (counter + 1)
      else some target := rfl

theorem codeProbe_zero (p : FPath) : codeProbe p 0 = p := rfl

theorem codeProbe_succ (p : FPath) (k : Nat) :
    codeProbe p (k + 1) = nextTarget (codeProbe p k) (k + 1) := rfl

theorem lastName_nextTarget (p : FPath) (c : Nat) :
    lastName (nextTarget p c) =
      pyStem (lastName p) ++ "(" ++ toString c ++ ")" ++ pySuffix (lastName p) := by
  unfold nextTarget
  exact lastName_withName _ _

theorem length_lastName_nextTarget (p : FPath) (c : Nat) :
    (lastName (nextTarget p c)).length = (lastName p).length + (toString c).length + 2 := by
  rw [lastName_nextTarget]
  have h1 : ("(" : String).length = 1 := rfl
  have h2 : (")" : String).length = 1 := rfl
  have h3 := length_pyStem_add_pySuffix (lastName p)
  simp only [String.length_append, h1, h2]
  omega

theorem le_length_lastName_codeProbe (p : FPath) :
    ∀ k, k ≤ (lastName (codeProbe p k)).length := by
  intro k
  induction k with
  | zero => exact Nat.zero_le _
  | succ k ih =>
    rw [codeProbe_succ, length_lastName_nextTarget]
    omega

theorem le_foldr_max (f : FPath → Nat) (l : List FPath) (x : FPath) (hx : x ∈ l) :
    f x ≤ (l.map f).foldr max 0 := by
  induction l with
  | nil => cases hx
  | cons a l ih =>
    simp only [List.map_cons, List.foldr_cons]
    rcases List.mem_cons.mp hx with h | h
    · rw [h]; exact Nat.le_max_left _ _
    · exact le_trans (ih h) (Nat.le_max_right _ _)

theorem length_le_of_pathExists (fs : FS) (q : FPath) (h : pathExists fs q) :
    (lastName q).length ≤ maxNameLen fs := by
  unfold maxNameLen
  refine le_foldr_max (fun p => (lastName p).length) (fs.files ++ fs.dirs) q ?_
  rcases h with h | h
  · exact List.mem_append_left _ h
  · exact List.mem_append_right _ h

theorem resolveTarget_none_probe (fs : FS) (p : FPath) :
    ∀ fuel k, resolveTarget fs fuel (codeProbe p k) (k + 1) = none →
      ∀ j, j < fuel → pathExists fs (codeProbe p (k + j)) := by
  intro fuel
  induction fuel with
  | zero => intro k _ j hj; exact absurd hj (Nat.not_lt_zero j)
  | succ fuel ih =>
    intro k hnone j hj
    rw [resolveTarget_succ] at hnone
    by_cases hex : pathExists fs (codeProbe p k)
    · rw [if_pos hex] at hnone
      cases j with
      | zero => simpa using hex
      | succ j =>
        have h' : resolveTarget fs fuel (codeProbe p (k + 1)) ((k + 1) + 1) = none := by
          rw [codeProbe_succ]; exact hnone
        have h2 := ih (k + 1) h' j (by omega)
        have he : k + (j + 1) = (k + 1) + j := by omega
        rw [he]; exact h2
    · rw [if_neg hex] at hnone
      simp at hnone

theorem resolveTarget_total (fs : FS) (p : FPath) :
    ∃ t, resolveTarget fs (moveFuel fs) p 1 = some t := by
  cases h : resolveTarget fs (moveFuel fs) p 1 with
  | some t => exact ⟨t, rfl⟩
  | none =>
    exfalso
    have h0 : resolveTarget fs (moveFuel fs) (codeProbe p 0) (0 + 1) = none := h
    have hM := resolveTarget_none_probe fs p (moveFuel fs) 0 h0 (maxNameLen fs + 1)
      (by unfold moveFuel; omega)
    rw [Nat.zero_add] at hM
    have hlen := le_length_lastName_codeProbe p (maxNameLen fs + 1)
    have hle := length_le_of_pathExists fs _ hM
    omega

theorem resolveTarget_sound (fs : FS) (p : FPath) :
    ∀ fuel k t, resolveTarget fs fuel (codeProbe p k) (k + 1) = some t →
      ¬ pathExists fs t ∧
        ∃ m, k ≤ m ∧ t = codeProbe p m ∧
          ∀ j, k ≤ j → j < m → pathExists fs (codeProbe p j) := by
  intro fuel
  induction fuel with
  | zero => intro k t h; rw [resolveTarget_zero] at h; cases h
  | succ fuel ih =>
    intro k t h
    rw [resolveTarget_succ] at h
    by_cases hex : pathExists fs (codeProbe p k)
    · rw [if_pos hex] at h
      have h' : resolveTarget fs fuel (codeProbe p (k + 1)) ((k + 1) + 1) = some t := by
        rw [codeProbe_succ]; exact h
      obtain ⟨hne, m, hkm, ht, hall⟩ := ih (k + 1) t h'
      refine ⟨hne, m, by omega, ht, ?_⟩
      intro j hkj hjm
      rcases Nat.eq_or_lt_of_le hkj with he | hlt
      · rw [← he]; exact hex
      · exact hall j hlt hjm
    · rw [if_neg hex] at h
      injection h with h
      subst h
      exact ⟨hex, k, Nat.le_refl k, rfl,
        fun j h1 h2 => absurd h2 (Nat.not_lt.mpr h1)⟩

/-- C1 (amended): if the candidate does not exist it is returned unchanged;
otherwise the loop walks the probe sequence that re-splits the CURRENT
probe into stem and extension each iteration — `stem(1)ext`,
`stem(1)(2)ext`, `stem(1)(2)(3)ext`, … — and returns the first probe that
does not exist (the loop always terminates on a finite filesystem).
Repeated resolutions against the same pre-existing candidate therefore
nest suffixes with increasing counters instead of producing `stem(n)ext`. -/
theorem claim_C1_amended (fs : FS) (p : FPath) :
    (¬ pathExists fs p → resolveTarget fs (moveFuel fs) p 1 = some p) ∧
    ∃ t m, resolveTarget fs (moveFuel fs) p 1 = some t ∧ ¬ pathExists fs t ∧
      t = codeProbe p m ∧ ∀ j, j < m → pathExists fs (codeProbe p j) := by
  constructor
  · intro h
    have he : moveFuel fs = (maxNameLen fs + 1) + 1 := by unfold moveFuel; omega
    rw [he, resolveTarget_succ, if_neg h]
  · obtain ⟨t, ht⟩ := resolveTarget_total fs p
    have h0 : resolveTarget fs (moveFuel fs) (codeProbe p 0) (0 + 1) = some t := ht
    obtain ⟨hne, m, _, htm, hall⟩ := resolveTarget_sound fs p (moveFuel fs) 0 t h0
    exact ⟨t, m, ht, hne, htm, fun j hj => hall j (Nat.zero_le j) hj⟩

/-- Destination directory in which both the candidate `a.pdf` and its first
disambiguation `a(1).pdf` already exist. -/
def fsC1 : FS := ⟨[], [["d", "a.pdf"], ["d", "a(1).pdf"]], []⟩

/-- C1 counterexample: with `a.pdf` and `a(1).pdf` both existing, the rename
loop of `move_file` returns the nested `a(1)(2).pdf` — not the claimed
`stem(2)ext` probe `a(2).pdf`, which does not even exist. -/
theorem claim_C1_counterexample :
    resolveTarget fsC1 (moveFuel fsC1) ["d", "a.pdf"] 1 = some ["d", "a(1)(2).pdf"] ∧
    specProbe ["d", "a.pdf"] 2 = ["d", "a(2).pdf"] ∧
    ¬ pathExists fsC1 ["d", "a(2).pdf"] ∧
    (["d", "a(1)(2).pdf"] : FPath) ≠ ["d", "a(2).pdf"] :=
  ⟨by decide, by decide, by decide, by decide⟩

/-- A destination whose candidate name is free. -/
def fsW1 : FS := ⟨[], [["d", "x.txt"]], []⟩

theorem claim_C1_witness :
    ¬ pathExists fsW1 ["d", "y.txt"] ∧
    resolveTarget fsW1 (moveFuel fsW1) ["d", "y.txt"] 1 = some ["d", "y.txt"] :=
  ⟨by decide, (claim_C1_amended fsW1 ["d", "y.txt"]).1 (by decide)⟩

/-! ## Task execution -/

theorem runTasks_nil (env : Env) (fs : FS) : runTasks env fs [] = (fs, []) := rfl

theorem runTasks_cons (env : Env) (fs : FS) (t : RTask) (ts : List RTask) :
    runTasks env fs (t :: ts) =
      ((runTasks env (moveFileExec env fs t).1 ts).1,
        (moveFileExec env fs t).2 :: (runTasks env (moveFileExec env fs t).1 ts).2) := rfl

theorem runTasks_length (env : Env) :
    ∀ ts fs, (runTasks env fs ts).2.length = ts.length := by
  intro ts
  induction ts with
  | nil => intro fs; rfl
  | cons t ts ih =>
    intro fs
    rw [runTasks_cons]
    simp [ih]

theorem moveFileExec_failed_fs (env : Env) (fs : FS) (t : RTask) (s : FPath) (r : String)
    (h : (moveFileExec env fs t).2 = Outcome.failed s r) :
    (moveFileExec env fs t).1 = fs := by
  unfold moveFileExec at h ⊢
  cases hr : resolveTarget fs (moveFuel fs) t.dst 1 with
  | none => simp [hr]
  | some tg =>
    rw [hr] at h
    simp only at h ⊢
    by_cases hc : t.src ∈ fs.files ∧ t.src ∉ env.moveFail
    · rw [if_pos hc] at h ⊢
      by_cases hcopy : t.copyOnly
      · rw [if_pos hcopy] at h; simp at h
      · rw [if_neg hcopy] at h; simp at h
    · rw [if_neg hc]

/-- C7: every submitted task executes to exactly one recorded outcome — a
failed relocation is caught inside `move_file` and never aborts the pool —
and a failed task leaves the filesystem unchanged, so all remaining tasks
run exactly as if the failed one had been skipped, with the failure
recorded alongside their outcomes together with its reason. -/
theorem claim_C7_failure_isolated (env : Env) (fs : FS) (t : RTask) (ts : List RTask) :
    ((runTasks env fs ts).2.length = ts.length) ∧
    (∀ s r, (moveFileExec env fs t).2 = Outcome.failed s r →
      runTasks env fs (t :: ts) =
        ((runTasks env fs ts).1, Outcome.failed s r :: (runTasks env fs ts).2)) := by
  refine ⟨runTasks_length env ts fs, ?_⟩
  intro s r h
  rw [runTasks_cons, moveFileExec_failed_fs env fs t s r h, h]

/-- Environment with no injected I/O failures. -/
def envN : Env := ⟨[], []⟩

/-- Scenario E shape: the first task's source file has disappeared between
scan and relocation, the second task's source still exists. -/
def fsE : FS := ⟨[["out", "Files", "txt"]], [["r", "2025-01", "b.txt"]], []⟩

def taskGone : RTask :=
  ⟨["r", "2025-01", "gone.txt"], ["out", "Files", "txt", "gone.txt"], false⟩

def taskB : RTask :=
  ⟨["r", "2025-01", "b.txt"], ["out", "Files", "txt", "b.txt"], false⟩

theorem claim_C7_witness :
    (runTasks envN fsE [taskGone, taskB]).2.length = 2 ∧
    runTasks envN fsE [taskGone, taskB] =
      ((runTasks envN fsE [taskB]).1,
        Outcome.failed ["r", "2025-01", "gone.txt"]
          (moveFailMsg taskGone ["out", "Files", "txt", "gone.txt"]) ::
          (runTasks envN fsE [taskB]).2) :=
  ⟨(claim_C7_failure_isolated envN fsE taskGone [taskGone, taskB]).1,
   (claim_C7_failure_isolated envN fsE taskGone [taskB]).2 _ _ (by decide)⟩

/-! ## Candidate destinations are computed without existence checks -/

/-- Replace the set of existing regular files, leaving directories and the
mtime table alone. -/
def setFiles (fs : FS) (l : List FPath) : FS := { fs with files := l }

theorem mkdirP_setFiles (env : Env) (fs : FS) (l : List FPath) (p : FPath) :
    mkdirP env (setFiles fs l) p =
      Except.map (fun fs2 => setFiles fs2 l) (mkdirP env fs p) := by
  unfold mkdirP setFiles
  by_cases h1 : p ∈ fs.dirs
  · simp [h1, Except.map]
  · by_cases h2 : p ∈ env.mkdirFail
    · simp [h1, h2, Except.map]
    · simp [h1, h2, Except.map]

theorem destFor_setFiles (env : Env) (cfg : Config) (fs : FS) (l : List FPath)
    (tdir src : FPath) :
    destFor env cfg (setFiles fs l) tdir src =
      (setFiles (destFor env cfg fs tdir src).1 l,
        (destFor env cfg fs tdir src).2.1, (destFor env cfg fs tdir src).2.2) := by
  unfold destFor
  by_cases hd : cfg.useDate
  · simp only [hd, if_true]
    rw [show (setFiles fs l).mtimes = fs.mtimes from rfl]
    cases hm : lookupMtime fs.mtimes src with
    | none => rfl
    | some t =>
      simp only
      rw [mkdirP_setFiles]
      cases hk : mkdirP env fs (tdir ++ [formatDate t]) with
      | error e => simp [Except.map]
      | ok fs2 => simp [Except.map]
  · simp [hd]

theorem buildGroup_cons (env : Env) (cfg : Config) (tdir : FPath) (fs : FS)
    (src : FPath) (rest : List FPath) :
    buildGroup env cfg tdir fs (src :: rest) =
      ((buildGroup env cfg tdir (destFor env cfg fs tdir src).1 rest).1,
        ⟨src, (destFor env cfg fs tdir src).2.1, cfg.keepOriginal⟩ ::
          (buildGroup env cfg tdir (destFor env cfg fs tdir src).1 rest).2.1,
        (destFor env cfg fs tdir src).2.2 ++
          (buildGroup env cfg tdir (destFor env cfg fs tdir src).1 rest).2.2) := rfl

theorem buildTasks_cons (env : Env) (cfg : Config) (fs : FS) (suf : String)
    (fps : List FPath) (rest : List (String × List FPath)) :
    buildTasks env cfg fs ((suf, fps) :: rest) =
      ((buildTasks env cfg (buildGroup env cfg (typeDir cfg suf) fs fps).1 rest).1,
        (buildGroup env cfg (typeDir cfg suf) fs fps).2.1 ++
          (buildTasks env cfg (buildGroup env cfg (typeDir cfg suf) fs fps).1 rest).2.1,
        (buildGroup env cfg (typeDir cfg suf) fs fps).2.2 ++
          (buildTasks env cfg (buildGroup env cfg (typeDir cfg suf) fs fps).1 rest).2.2) := rfl

theorem buildGroup_setFiles (env : Env) (cfg : Config) (tdir : FPath) (l : List FPath) :
    ∀ fps fs, buildGroup env cfg tdir (setFiles fs l) fps =
      (setFiles (buildGroup env cfg tdir fs fps).1 l,
        (buildGroup env cfg tdir fs fps).2.1, (buildGroup env cfg tdir fs fps).2.2) := by
  intro fps
  induction fps with
  | nil => intro fs; rfl
  | cons src rest ih =>
    intro fs
    rw [buildGroup_cons, buildGroup_cons, destFor_setFiles]
    simp only
    rw [ih]

theorem buildTasks_setFiles (env : Env) (cfg : Config) (l : List FPath) :
    ∀ groups fs, buildTasks env cfg (setFiles fs l) groups =
      (setFiles (buildTasks env cfg fs groups).1 l,
        (buildTasks env cfg fs groups).2.1, (buildTasks env cfg fs groups).2.2) := by
  intro groups
  induction groups with
  | nil => intro fs; rfl
  | cons g rest ih =>
    intro fs
    cases g with
    | mk suf fps =>
      rw [buildTasks_cons, buildTasks_cons, buildGroup_setFiles]
      simp only
      rw [ih]

/-- C2 (amended): each task's candidate destination (target directory plus
the source's base name) is fully determined before submission and involves
no existence probing — replacing the set of existing regular files changes
neither the submitted task list nor the warnings — while collision
disambiguation runs inside `move_file` during the task's own execution: a
successful relocation writes exactly the target that the rename loop
produces from the submitted candidate against the filesystem as it is at
execution time. -/
theorem claim_C2_amended (env : Env) (cfg : Config) (fs : FS) (l : List FPath)
    (groups : List (String × List FPath)) (t : RTask) :
    ((buildTasks env cfg (setFiles fs l) groups).2 = (buildTasks env cfg fs groups).2) ∧
    (∀ s tg, (moveFileExec env fs t).2 = Outcome.success s tg →
      s = t.src ∧ resolveTarget fs (moveFuel fs) t.dst 1 = some tg ∧
        ¬ pathExists fs tg) := by
  constructor
  · rw [buildTasks_setFiles]
  · intro s tg h
    unfold moveFileExec at h
    cases hr : resolveTarget fs (moveFuel fs) t.dst 1 with
    | none => rw [hr] at h; simp at h
    | some target =>
      rw [hr] at h
      simp only at h
      by_cases hc : t.src ∈ fs.files ∧ t.src ∉ env.moveFail
      · rw [if_pos hc] at h
        have htg : target = tg ∧ s = t.src := by
          by_cases hcopy : t.copyOnly
          · rw [if_pos hcopy] at h
            injection h with h1 h2
            exact ⟨h2, h1.symm⟩
          · rw [if_neg hcopy] at h
            injection h with h1 h2
            exact ⟨h2, h1.symm⟩
        obtain ⟨h1, h2⟩ := htg
        rw [h1] at hr
        have h0 : resolveTarget fs (moveFuel fs) (codeProbe t.dst 0) (0 + 1) =
            some tg := hr
        obtain ⟨hne, _⟩ := resolveTarget_sound fs t.dst (moveFuel fs) 0 tg h0
        exact ⟨h2, by rw [h1], hne⟩
      · rw [if_neg hc] at h
        simp at h

/-- Run input with a month folder holding `a.pdf`, whose destination
`out/Files/pdf/a.pdf` already exists before the run. -/
def fsC2 : FS :=
  ⟨[["r"], ["r", "2025-06"]],
   [["r", "2025-06", "a.pdf"], ["out", "Files", "pdf", "a.pdf"]], []⟩

def cfgC2 : Config := ⟨["r"], ["out"], false, false⟩

/-- C2 counterexample: the task submitted for `a.pdf` carries the candidate
destination `out/Files/pdf/a.pdf`, which already exists at submission time;
the executed relocation writes `out/Files/pdf/a(1).pdf` instead — collision
disambiguation ran during the task's own execution, not before submission. -/
theorem claim_C2_counterexample :
    (mainRun envN cfgC2 fsC2).2 = RunExit.ok
      ⟨[⟨["r", "2025-06", "a.pdf"], ["out", "Files", "pdf", "a.pdf"], false⟩],
       [Outcome.success ["r", "2025-06", "a.pdf"] ["out", "Files", "pdf", "a(1).pdf"]],
       [], 1, true⟩ ∧
    pathExists fsC2 ["out", "Files", "pdf", "a.pdf"] ∧
    (["out", "Files", "pdf", "a(1).pdf"] : FPath) ≠ ["out", "Files", "pdf", "a.pdf"] :=
  ⟨by decide, by decide, by decide⟩

theorem claim_C2_witness :
    (buildTasks envN cfgC2 (setFiles fsC2 []) [("pdf", [["r", "2025-06", "a.pdf"]])]).2 =
      (buildTasks envN cfgC2 fsC2 [("pdf", [["r", "2025-06", "a.pdf"]])]).2 ∧
    (resolveTarget fsE (moveFuel fsE) taskB.dst 1 = some ["out", "Files", "txt", "b.txt"] ∧
      ¬ pathExists fsE ["out", "Files", "txt", "b.txt"]) := by
  constructor
  · exact (claim_C2_amended envN cfgC2 fsC2 [] [("pdf", [["r", "2025-06", "a.pdf"]])] taskB).1
  · have h := (claim_C2_amended envN cfgC2 fsE [] [] taskB).2
      ["r", "2025-01", "b.txt"] ["out", "Files", "txt", "b.txt"] (by decide)
    exact ⟨h.2.1, h.2.2⟩

/-! ## Destination layout and date fallback -/

/-- C5: with date sub-classification off, the candidate destination is
`output_root/Files/key/basename`; with it on (readable timestamp,
creatable date directory) it is `output_root/Files/key/YYYY-MM-DD/basename`
with the date rendered from the source's modification time.  Directory
creation is a successful no-op when the directory already exists, and a
fresh creation adds the directory together with every parent prefix. -/
theorem claim_C5_destination_layout (env : Env) (cfg : Config) (fs : FS) (k : String)
    (src : FPath) (t : Nat) (fs2 : FS) :
    (cfg.useDate = false →
      destFor env cfg fs (typeDir cfg k) src =
        (fs, cfg.outRoot ++ ["Files", k, lastName src], [])) ∧
    (cfg.useDate = true → lookupMtime fs.mtimes src = some t →
      mkdirP env fs (typeDir cfg k ++ [formatDate t]) = Except.ok fs2 →
      destFor env cfg fs (typeDir cfg k) src =
        (fs2, cfg.outRoot ++ ["Files", k, formatDate t, lastName src], [])) ∧
    (∀ p, p ∈ fs.dirs → mkdirP env fs p = Except.ok fs) ∧
    (∀ p fs3, p ∉ fs.dirs → mkdirP env fs p = Except.ok fs3 →
      ∀ n, p.take n ∈ fs3.dirs) := by
  refine ⟨?_, ?_, ?_, ?_⟩
  · intro h
    simp [destFor, h, typeDir, List.append_assoc]
  · intro h hm hk
    simp only [destFor, h, hm, eq_self_iff_true, if_true]
    rw [hk]
    simp [typeDir, List.append_assoc]
  · intro p hp
    simp [mkdirP, hp]
  · intro p fs3 hp hk n
    unfold mkdirP at hk
    rw [if_neg hp] at hk
    by_cases hf : p ∈ env.mkdirFail
    · rw [if_pos hf] at hk; cases hk
    · rw [if_neg hf] at hk
      injection hk with hk
      rw [← hk]
      show p.take n ∈ p.inits ++ fs.dirs
      apply List.mem_append_left
      rw [List.mem_inits]
      exact ⟨p.drop n, List.take_append_drop n p⟩

/-- A pre-existing destination tree with one known modification time. -/
def fsY : FS :=
  ⟨[["out"], ["out", "Files"], ["out", "Files", "pdf"]], [], [(["r", "a.pdf"], 0)]⟩

def cfgOff : Config := ⟨["r"], ["out"], false, false⟩

def cfgOn : Config := ⟨["r"], ["out"], true, false⟩

/-- The filesystem after creating the date directory under `fsY`. -/
def fsY2 : FS :=
  ⟨(typeDir cfgOn "pdf" ++ [formatDate 0]).inits ++ fsY.dirs, fsY.files, fsY.mtimes⟩

/-- The filesystem after creating a fresh directory under `fsY`. -/
def fsY3 : FS :=
  ⟨(["out", "Files", "zip"] : FPath).inits ++ fsY.dirs, fsY.files, fsY.mtimes⟩

theorem claim_C5_witness :
    destFor envN cfgOff fsY (typeDir cfgOff "pdf") ["r", "a.pdf"] =
      (fsY, ["out", "Files", "pdf", "a.pdf"], []) ∧
    destFor envN cfgOn fsY (typeDir cfgOn "pdf") ["r", "a.pdf"] =
      (fsY2, ["out", "Files", "pdf", formatDate 0, "a.pdf"], []) ∧
    mkdirP envN fsY ["out", "Files"] = Except.ok fsY ∧
    (["out", "Files", "zip"] : FPath).take 2 ∈ fsY3.dirs :=
  ⟨(claim_C5_destination_layout envN cfgOff fsY "pdf" ["r", "a.pdf"] 0 fsY).1 rfl,
   (claim_C5_destination_layout envN cfgOn fsY "pdf" ["r", "a.pdf"] 0 fsY2).2.1
      rfl (by decide) rfl,
   (claim_C5_destination_layout envN cfgOff fsY "pdf" ["r", "a.pdf"] 0 fsY).2.2.1
      ["out", "Files"] (by decide),
   (claim_C5_destination_layout envN cfgOff fsY "pdf" ["r", "a.pdf"] 0 fsY).2.2.2
      ["out", "Files", "zip"] fsY3 (by decide) rfl 2⟩

theorem buildGroup_length (env : Env) (cfg : Config) (tdir : FPath) :
    ∀ fps fs, (buildGroup env cfg tdir fs fps).2.1.length = fps.length := by
  intro fps
  induction fps with
  | nil => intro fs; rfl
  | cons src rest ih =>
    intro fs
    rw [buildGroup_cons]
    simp [ih]

theorem buildTasks_length (env : Env) (cfg : Config) :
    ∀ groups fs, (buildTasks env cfg fs groups).2.1.length =
      (groups.map (fun g => g.2.length)).sum := by
  intro groups
  induction groups with
  | nil => intro fs; rfl
  | cons g rest ih =>
    intro fs
    cases g with
    | mk suf fps =>
      rw [buildTasks_cons]
      simp [buildGroup_length, ih]

/-- C6: when date sub-classification is on and the source's modification
time cannot be read, the destination falls back to the first-level type
directory, the failure is reported as a warning, and every discovered file
still yields exactly one relocation task — the timestamp failure is
non-fatal for the file. -/
theorem claim_C6_timestamp_fallback (env : Env) (cfg : Config) (fs : FS)
    (tdir src : FPath) :
    (cfg.useDate = true → lookupMtime fs.mtimes src = none →
      destFor env cfg fs tdir src =
        (fs, tdir ++ [lastName src], [tsWarn src "stat failed"])) ∧
    (∀ groups, (buildTasks env cfg fs groups).2.1.length =
      (groups.map (fun g => g.2.length)).sum) := by
  constructor
  · intro h hm
    simp [destFor, h, hm]
  · intro groups
    exact buildTasks_length env cfg groups fs

/-- A source file with no readable modification time. -/
def fsNoMt : FS := ⟨[], [["r", "2025-01", "a.pdf"]], []⟩

theorem claim_C6_witness :
    destFor envN cfgOn fsNoMt ["out", "Files", "pdf"] ["r", "2025-01", "a.pdf"] =
      (fsNoMt, ["out", "Files", "pdf", "a.pdf"],
        [tsWarn ["r", "2025-01", "a.pdf"] "stat failed"]) ∧
    (buildTasks envN cfgOn fsNoMt [("pdf", [["r", "2025-01", "a.pdf"]])]).2.1.length =
      ([("pdf", [["r", "2025-01", "a.pdf"]])].map
        (fun g => g.2.length)).sum :=
  ⟨(claim_C6_timestamp_fallback envN cfgOn fsNoMt ["out", "Files", "pdf"]
      ["r", "2025-01", "a.pdf"]).1 rfl rfl,
   (claim_C6_timestamp_fallback envN cfgOn fsNoMt [] []).2 _⟩

/-! ## Run-level behaviour -/

/-- C8: an invalid input root makes the run exit with the invalid-root
error before any filesystem mutation — the filesystem is returned
untouched, so no destination directory was created and no file was moved
or copied. -/
theorem claim_C8_invalid_root (env : Env) (cfg : Config) (fs : FS)
    (h : cfg.root ∉ fs.dirs) :
    mainRun env cfg fs = (fs, RunExit.invalidRoot) := by
  simp [mainRun, h]

theorem claim_C8_witness :
    (["missing"] : FPath) ∉ fsE.dirs ∧
    mainRun envN ⟨["missing"], ["out"], false, false⟩ fsE = (fsE, RunExit.invalidRoot) :=
  ⟨by decide,
   claim_C8_invalid_root envN ⟨["missing"], ["out"], false, false⟩ fsE (by decide)⟩

theorem mkdirP_files (env : Env) (fs : FS) (p : FPath) (fs2 : FS)
    (h : mkdirP env fs p = Except.ok fs2) : fs2.files = fs.files := by
  unfold mkdirP at h
  by_cases h1 : p ∈ fs.dirs
  · rw [if_pos h1] at h; injection h with h; rw [← h]
  · rw [if_neg h1] at h
    by_cases h2 : p ∈ env.mkdirFail
    · rw [if_pos h2] at h; cases h
    · rw [if_neg h2] at h; injection h with h; rw [← h]

theorem createTypeDirs_files (env : Env) (cfg : Config) :
    ∀ ks fs fs2, createTypeDirs env cfg fs ks = Except.ok fs2 → fs2.files = fs.files := by
  intro ks
  induction ks with
  | nil => intro fs fs2 h; injection h with h; rw [← h]
  | cons k ks ih =>
    intro fs fs2 h
    unfold createTypeDirs at h
    cases hk : mkdirP env fs (typeDir cfg k) with
    | error e => rw [hk] at h; cases h
    | ok fs1 =>
      rw [hk] at h
      simp only at h
      rw [ih fs1 fs2 h, mkdirP_files env fs _ fs1 hk]

theorem destFor_files (env : Env) (cfg : Config) (fs : FS) (tdir src : FPath) :
    (destFor env cfg fs tdir src).1.files = fs.files := by
  unfold destFor
  by_cases hd : cfg.useDate
  · simp only [hd, if_true]
    cases hm : lookupMtime fs.mtimes src with
    | none => rfl
    | some t =>
      simp only
      cases hk : mkdirP env fs (tdir ++ [formatDate t]) with
      | error e => rfl
      | ok fs2 => exact mkdirP_files env fs _ fs2 hk
  · simp [hd]

theorem buildGroup_files (env : Env) (cfg : Config) (tdir : FPath) :
    ∀ fps fs, (buildGroup env cfg tdir fs fps).1.files = fs.files := by
  intro fps
  induction fps with
  | nil => intro fs; rfl
  | cons src rest ih =>
    intro fs
    rw [buildGroup_cons]
    simp only
    rw [ih, destFor_files]

theorem buildTasks_files (env : Env) (cfg : Config) :
    ∀ groups fs, (buildTasks env cfg fs groups).1.files = fs.files := by
  intro groups
  induction groups with
  | nil => intro fs; rfl
  | cons g rest ih =>
    intro fs
    cases g with
    | mk suf fps =>
      rw [buildTasks_cons]
      simp only
      rw [ih, buildGroup_files]

/-- C9: whenever a run completes normally, an empty task list means the
run was a no-op — no pool was created, no outcome was produced, and the
set of regular files is unchanged — while a nonempty task list means the
pool was created with exactly `min(32, task_count)` workers (the
configured maximum is the constant 32 of the source). -/
theorem claim_C9_pool_size (env : Env) (cfg : Config) (fs : FS) (fs2 : FS) (r : RunResult)
    (h : mainRun env cfg fs = (fs2, RunExit.ok r)) :
    (r.tasks = [] → r.poolCreated = false ∧ r.outcomes = [] ∧ r.workers = 0 ∧
      fs2.files = fs.files) ∧
    (r.tasks ≠ [] → r.poolCreated = true ∧ r.workers = min 32 r.tasks.length) := by
  unfold mainRun at h
  by_cases hroot : cfg.root ∈ fs.dirs
  · rw [if_pos hroot] at h
    cases hc : createTypeDirs env cfg fs ((scan fs cfg.root).map Prod.fst) with
    | error e => rw [hc] at h; simp at h
    | ok fs1 =>
      rw [hc] at h
      simp only at h
      unfold execPhase at h
      by_cases hts : (buildTasks env cfg fs1 (scan fs cfg.root)).2.1 = []
      · rw [if_pos hts] at h
        simp only [Prod.mk.injEq] at h
        obtain ⟨hfs, hr⟩ := h
        injection hr with hr
        constructor
        · intro _
          rw [← hr, ← hfs]
          refine ⟨rfl, rfl, rfl, ?_⟩
          rw [buildTasks_files env cfg (scan fs cfg.root) fs1,
            createTypeDirs_files env cfg ((scan fs cfg.root).map Prod.fst) fs fs1 hc]
        · intro hne
          rw [← hr] at hne
          simp [hts] at hne
      · rw [if_neg hts] at h
        simp only [Prod.mk.injEq] at h
        obtain ⟨hfs, hr⟩ := h
        injection hr with hr
        constructor
        · intro he
          rw [← hr] at he
          simp only at he
          exact absurd he hts
        · intro _
          rw [← hr]
          exact ⟨rfl, rfl⟩
  · rw [if_neg hroot] at h
    simp only [Prod.mk.injEq] at h
    obtain ⟨_, hr⟩ := h
    cases hr

/-- A run input whose root is valid but holds no month folders. -/
def fsEmptyRun : FS := ⟨[["r"]], [], []⟩

/-- Summary of the empty run. -/
def rEmpty : RunResult := ⟨[], [], [], 0, false⟩

/-- Summary of the one-task run on `fsC2`. -/
def rC2 : RunResult :=
  ⟨[⟨["r", "2025-06", "a.pdf"], ["out", "Files", "pdf", "a.pdf"], false⟩],
   [Outcome.success ["r", "2025-06", "a.pdf"] ["out", "Files", "pdf", "a(1).pdf"]],
   [], 1, true⟩

theorem claim_C9_witness :
    (rEmpty.poolCreated = false ∧ rEmpty.outcomes = [] ∧ rEmpty.workers = 0 ∧
      fsEmptyRun.files = fsEmptyRun.files) ∧
    (rC2.poolCreated = true ∧ rC2.workers = min 32 rC2.tasks.length) :=
  ⟨(claim_C9_pool_size envN cfgOff fsEmptyRun fsEmptyRun rEmpty (by decide)).1 rfl,
   (claim_C9_pool_size envN cfgC2 fsC2 (mainRun envN cfgC2 fsC2).1 rC2 (by decide)).2
     (by decide)⟩

/-! ## Directory-creation failure -/

/-- C3 (amended): an exception from creating a first-level type directory
escapes the creation loop and aborts the whole run — no task is executed
and no per-file failure is recorded — whereas a failure to create a DATE
sub-directory is the non-fatal one: the affected file falls back to the
type directory with a warning and is still relocated. -/
theorem claim_C3_amended (env : Env) (cfg : Config) (fs : FS) (e : FS × FPath × String)
    (tdir src : FPath) (t : Nat) (er : String) :
    (cfg.root ∈ fs.dirs →
      createTypeDirs env cfg fs ((scan fs cfg.root).map Prod.fst) = Except.error e →
      mainRun env cfg fs = (e.1, RunExit.dirCreateError e.2.1 e.2.2)) ∧
    (cfg.useDate = true → lookupMtime fs.mtimes src = some t →
      mkdirP env fs (tdir ++ [formatDate t]) = Except.error er →
      destFor env cfg fs tdir src = (fs, tdir ++ [lastName src], [tsWarn src er])) := by
  constructor
  · intro hroot hc
    unfold mainRun
    rw [if_pos hroot, hc]
  · intro h hm hk
    simp only [destFor, h, hm, eq_self_iff_true, if_true]
    rw [hk]

/-- Injected `mkdir` failure for the `pdf` type directory; two source files
of different types are discovered. -/
def envC3 : Env := ⟨[["out", "Files", "pdf"]], []⟩

def fsC3 : FS :=
  ⟨[["r"], ["r", "2025-01"]],
   [["r", "2025-01", "a.pdf"], ["r", "2025-01", "b.txt"]], []⟩

/-- C3 counterexample: when the `pdf` type directory cannot be created the
whole run aborts with `dirCreateError` and the filesystem untouched —
`b.txt`'s task is never executed and `a.pdf` is not reported as an
individual task failure, contradicting "fatal for the affected task only
... the run continues processing all other tasks". -/
theorem claim_C3_counterexample :
    mainRun envC3 cfgOff fsC3 =
      (fsC3, RunExit.dirCreateError ["out", "Files", "pdf"]
        "mkdir failed: out/Files/pdf") := by decide

/-- Injected `mkdir` failure for a date sub-directory only. -/
def envDateFail : Env := ⟨[["out", "Files", "pdf", formatDate 5]], []⟩

def fsMt : FS := ⟨[], [], [(["r", "a.pdf"], 5)]⟩

theorem claim_C3_witness :
    (mainRun envC3 cfgOff fsC3).2 =
      RunExit.dirCreateError ["out", "Files", "pdf"] "mkdir failed: out/Files/pdf" ∧
    destFor envDateFail cfgOn fsMt ["out", "Files", "pdf"] ["r", "a.pdf"] =
      (fsMt, ["out", "Files", "pdf", "a.pdf"],
        [tsWarn ["r", "a.pdf"]
          ("mkdir failed: " ++ pathStr (["out", "Files", "pdf"] ++ [formatDate 5]))]) := by
  constructor
  · have h := (claim_C3_amended envC3 cfgOff fsC3
      (fsC3, ["out", "Files", "pdf"], "mkdir failed: out/Files/pdf")
      [] [] 0 "").1 (by decide) rfl
    rw [h]
  · exact (claim_C3_amended envDateFail cfgOn fsMt (fsMt, [], "")
      ["out", "Files", "pdf"] ["r", "a.pdf"] 5
      ("mkdir failed: " ++ pathStr (["out", "Files", "pdf"] ++ [formatDate 5]))).2
      rfl rfl rfl
